import Mathlib

/-!
Shallow embedding of the KhetiImproved job lifecycle / application-matching
engine.  Pure functions are translated from the TypeScript sources
(`PostJobPage.handleSubmit`, `MyJobsPage.handleSaveEdit`,
`MyJobsPage.handleDeleteJob` / `confirmDeleteJob`, `MyJobsPage.canReapply`,
`MyJobsPage.getTimeUntilReapply`, `JobCard.canApplyToJob`).  JavaScript
numbers are modelled as exact rationals (`ℚ`) for wages and integers (`ℤ`)
for counts and millisecond timestamps; `parseFloat` / `parseInt` results are
`Option` values (`none` models `NaN`).  The `WageValidator` and
`JobStatusManager` utilities are imported by the sources but their
implementation files are not available; they are modelled from the spec and
marked as such below.
-/

namespace Kheti

inductive JobStatus
  | «open»
  | filled
  | inProgress
  | completed
deriving DecidableEq, Repr

inductive AppStatus
  | pending
  | accepted
  | rejected
deriving DecidableEq, Repr

inductive DurationType
  | hours
  | days
deriving DecidableEq, Repr

inductive UserType
  | farmer
  | worker
deriving DecidableEq, Repr

/-- The Job record as created by `PostJobPage.handleSubmit`. -/
structure Job where
  id : String
  farmerId : String
  farmerName : String
  title : String
  description : String
  preferredDate : String
  wage : ℚ
  duration : ℤ
  durationType : DurationType
  location : String
  requiredWorkers : ℤ
  acceptedWorkerIds : List String
  createdAt : String
  status : JobStatus
deriving DecidableEq, Repr

/-- The Application record; `rejectedAt` is a millisecond epoch timestamp
(the parse of the stored ISO string). -/
structure Application where
  id : String
  jobId : String
  workerId : String
  status : AppStatus
  rejectedAt : Option ℤ
deriving DecidableEq, Repr

/-- `MyJobsPage.getJobApplications`. -/
def getJobApplications (applications : List Application) (jobId : String) :
    List Application :=
  applications.filter (fun app => app.jobId == jobId)

/-- `MyJobsPage.getAcceptedApplicationsCount`. -/
def getAcceptedApplicationsCount (applications : List Application)
    (jobId : String) : ℕ :=
  (applications.filter
    (fun app => app.jobId == jobId && app.status == AppStatus.accepted)).length

/-- Result shape of the wage validator. -/
structure WageValidationResult where
  canModify : Bool
deriving DecidableEq, Repr

/-- Modelled from the spec: `WageValidator.validateWageChange` lives in
`src/utils/wageValidation`, which is not among the available sources. Spec
§4.1: with no applications any change is allowed; with applications only the
no-op (proposed equal to current) is allowed. -/
def validateWageChange (currentWage proposedWage : ℚ) (hasApps : Bool)
    (_acceptedCount : ℕ) : WageValidationResult :=
  if !hasApps then ⟨true⟩
  else if proposedWage == currentWage then ⟨true⟩
  else ⟨false⟩

inductive EditError
  | completedJob
  | invalidWage
  | wageLocked (applicantCount : ℕ)
  | validatorRejected
  | invalidWorkers
  | belowAccepted (acceptedCount : ℕ)
  | cannotShrinkWithApplications
deriving DecidableEq, Repr

/-- `MyJobsPage.handleSaveEdit`, the edit pipeline for wage /
requiredWorkers / status, translated check by check in source order. -/
def handleSaveEdit (job : Job) (applications : List Application)
    (editWage : Option ℚ) (editRequiredWorkers : Option ℤ)
    (editStatus : JobStatus) : Except EditError Job :=
  if job.status = JobStatus.completed then .error .completedJob
  else
    let jobApplications := getJobApplications applications job.id
    let hasAnyApplications := decide (0 < jobApplications.length)
    let acceptedCount := getAcceptedApplicationsCount applications job.id
    match editWage with
    | none => .error .invalidWage
    | some newWage =>
      if newWage ≤ 0 then .error .invalidWage
      else if hasAnyApplications && decide (newWage ≠ job.wage) then
        .error (.wageLocked jobApplications.length)
      else
        match editRequiredWorkers with
        | none => .error .invalidWorkers
        | some newRequiredWorkers =>
          if newRequiredWorkers ≤ 0 then .error .invalidWorkers
          else
            let wageValidation :=
              validateWageChange job.wage newWage hasAnyApplications
                acceptedCount
            if !wageValidation.canModify && decide (newWage ≠ job.wage) then
              .error .validatorRejected
            else if newRequiredWorkers < (acceptedCount : ℤ) then
              .error (.belowAccepted acceptedCount)
            else if hasAnyApplications
                && decide (newRequiredWorkers < job.requiredWorkers) then
              .error .cannotShrinkWithApplications
            else
              .ok { job with
                      wage := newWage,
                      requiredWorkers := newRequiredWorkers,
                      status := editStatus }

/-- Modelled from the spec: `jobStorage.updateJob` (src/utils/storage is not
among the available sources); §6 `putJob` is insert-or-replace keyed by id. -/
def updateJob (jobs : List Job) (jobId : String) (updated : Job) : List Job :=
  jobs.map (fun j => if j.id == jobId then updated else j)

/-- The store-level effect of a save-edit click: look the job up, run
`handleSaveEdit`, and write the updated record back only on success. -/
def applySaveEdit (jobs : List Job) (applications : List Application)
    (jobId : String) (editWage : Option ℚ) (editRequiredWorkers : Option ℤ)
    (editStatus : JobStatus) : List Job :=
  match jobs.find? (fun j => j.id == jobId) with
  | none => jobs
  | some job =>
    match handleSaveEdit job applications editWage editRequiredWorkers
        editStatus with
    | .error _ => jobs
    | .ok updated => updateJob jobs jobId updated

inductive DeleteError
  | completedJob
deriving DecidableEq, Repr

/-- `MyJobsPage.handleDeleteJob` followed by `confirmDeleteJob`: refuse when
the job is completed, otherwise filter the job out of the job store and
filter its applications out of the application store. -/
def deleteJob (jobs : List Job) (applications : List Application)
    (jobId : String) : Except DeleteError (List Job × List Application) :=
  if (jobs.find? (fun j => j.id == jobId)).any
      (fun j => j.status == JobStatus.completed) then
    .error .completedJob
  else
    .ok (jobs.filter (fun j => !(j.id == jobId)),
         applications.filter (fun app => !(app.jobId == jobId)))

/-- `MyJobsPage.canReapply`: the stored application for this job must be
rejected with a timestamp, and at least 24 hours must have passed. -/
def canReapply (applications : List Application) (jobId : String)
    (now : ℤ) : Bool :=
  match applications.find? (fun app => app.jobId == jobId) with
  | none => false
  | some application =>
    if application.status != AppStatus.rejected then false
    else
      match application.rejectedAt with
      | none => false
      | some rejectedTime =>
        let hoursPassed : ℚ := ((now - rejectedTime : ℤ) : ℚ) / (1000 * 60 * 60)
        decide (24 ≤ hoursPassed)

/-- `MyJobsPage.getTimeUntilReapply`: remaining cooldown message,
`Math.ceil(24 - hoursPassed)` hours. -/
def getTimeUntilReapply (applications : List Application) (jobId : String)
    (now : ℤ) : String :=
  match applications.find? (fun app => app.jobId == jobId) with
  | none => ""
  | some application =>
    if application.status != AppStatus.rejected then ""
    else
      match application.rejectedAt with
      | none => ""
      | some rejectedTime =>
        let hoursPassed : ℚ := ((now - rejectedTime : ℤ) : ℚ) / (1000 * 60 * 60)
        let hoursLeft : ℤ := ⌈(24 : ℚ) - hoursPassed⌉
        if hoursLeft ≤ 0 then ""
        else s!"Can reapply in {hoursLeft} hours"

/-- `JobCard.canApplyToJob`: the apply button is enabled only with no
existing application status and an open job. -/
def canApplyToJob (canApply : Bool) (applicationStatus : Option AppStatus)
    (job : Job) : Bool :=
  if !canApply || applicationStatus.isSome then false
  else job.status == JobStatus.«open»

/-- Modelled from the spec: `JobStatusManager`'s per-job recompute
(src/utils/jobStatusManager is not among the available sources). Spec §4.4:
completed and in-progress are preserved; otherwise the status is `filled`
when the accepted count reaches `requiredWorkers`, else `open`. -/
def recomputeStatus (job : Job) : Job :=
  match job.status with
  | JobStatus.completed => job
  | JobStatus.inProgress => job
  | _ =>
    { job with
        status :=
          if job.requiredWorkers ≤ (job.acceptedWorkerIds.length : ℤ) then
            JobStatus.filled
          else JobStatus.«open» }

/-- Modelled from the spec: `JobStatusManager.updateAllJobStatuses`, the
batch recompute pass over every job in the store. -/
def updateAllJobStatuses (jobs : List Job) : List Job :=
  jobs.map recomputeStatus

inductive AcceptError
  | notPending
  | jobCompleted
  | jobFull
deriving DecidableEq, Repr

/-- Modelled from the spec: the Accept transition (§4.3) — the accepting
page is not among the available sources. Preconditions: application pending,
job not completed, accepted count below capacity; effects: application
becomes accepted and the worker id is added idempotently. -/
def acceptApplication (job : Job) (application : Application) :
    Except AcceptError (Job × Application) :=
  if application.status ≠ AppStatus.pending then .error .notPending
  else if job.status = JobStatus.completed then .error .jobCompleted
  else if job.requiredWorkers ≤ (job.acceptedWorkerIds.length : ℤ) then
    .error .jobFull
  else
    let ids :=
      if application.workerId ∈ job.acceptedWorkerIds then
        job.acceptedWorkerIds
      else job.acceptedWorkerIds ++ [application.workerId]
    .ok ({ job with acceptedWorkerIds := ids },
         { application with status := AppStatus.accepted })

/-- Invariant I2: the accepted-worker list never exceeds capacity. -/
abbrev acceptedWithinCapacity (job : Job) : Prop :=
  (job.acceptedWorkerIds.length : ℤ) ≤ job.requiredWorkers

/-- The job-creation form of `PostJobPage`; `wage`, `duration` and
`requiredWorkers` are parse results (`none` models `NaN` / empty input). -/
structure JobForm where
  title : String
  description : String
  preferredDate : String
  wage : Option ℚ
  duration : Option ℤ
  durationType : DurationType
  location : String
  requiredWorkers : Option ℤ
deriving DecidableEq, Repr

inductive CreateError
  | notFarmer
  | missingRequiredFields
  | invalidWage
  | wageTooHigh
  | invalidDuration
  | invalidWorkers
deriving DecidableEq, Repr

/-- JavaScript `String.prototype.trim`: whitespace removed from both ends. -/
def jsTrim (s : String) : String :=
  ⟨((s.data.dropWhile Char.isWhitespace).reverse.dropWhile
      Char.isWhitespace).reverse⟩

/-- `PostJobPage.handleSubmit`, validation checks in source order followed by
construction of the new Job record. -/
def handleSubmit (userType : UserType) (userId userName : String)
    (form : JobForm) (newId createdAt : String) : Except CreateError Job :=
  if userType ≠ UserType.farmer then .error .notFarmer
  else if jsTrim form.title = "" ∨ jsTrim form.description = ""
      ∨ jsTrim form.location = "" then .error .missingRequiredFields
  else
    match form.wage with
    | none => .error .invalidWage
    | some wageAmount =>
      if wageAmount ≤ 0 then .error .invalidWage
      else if 100000 < wageAmount then .error .wageTooHigh
      else
        match form.duration with
        | none => .error .invalidDuration
        | some duration =>
          if duration ≤ 0 then .error .invalidDuration
          else
            match form.requiredWorkers with
            | none => .error .invalidWorkers
            | some requiredWorkers =>
              if requiredWorkers ≤ 0 then .error .invalidWorkers
              else
                .ok { id := newId,
                      farmerId := userId,
                      farmerName := userName,
                      title := jsTrim form.title,
                      description := jsTrim form.description,
                      preferredDate := form.preferredDate,
                      wage := wageAmount,
                      duration := duration,
                      durationType := form.durationType,
                      location := jsTrim form.location,
                      requiredWorkers := requiredWorkers,
                      acceptedWorkerIds := [],
                      createdAt := createdAt,
                      status := JobStatus.«open» }

/-- The store-level effect of submitting the post-job form: the new record is
saved only when validation succeeds. -/
def submitAndSave (jobs : List Job) (userType : UserType)
    (userId userName : String) (form : JobForm) (newId createdAt : String) :
    List Job :=
  match handleSubmit userType userId userName form newId createdAt with
  | .error _ => jobs
  | .ok job => jobs ++ [job]

/-- The spec's display formula for the reapplication cooldown: the remaining
duration `24h - (now - rejectedAt)`, ceiling-rounded to whole hours. Stated
from the spec's words, to be compared with the hours computed by
`getTimeUntilReapply`. -/
def specRemainingHours (elapsedMs : ℤ) : ℤ :=
  ⌈((24 * 60 * 60 * 1000 - elapsedMs : ℤ) : ℚ) / (60 * 60 * 1000 : ℚ)⌉

/-- A concrete open job used to witness the theorems below. -/
def sampleJob : Job :=
  { id := "j1", farmerId := "f1", farmerName := "F", title := "t",
    description := "d", preferredDate := "", wage := 500, duration := 8,
    durationType := DurationType.hours, location := "L",
    requiredWorkers := 2, acceptedWorkerIds := [], createdAt := "",
    status := JobStatus.«open» }

/-- A concrete pending application for `sampleJob`. -/
def samplePending : Application :=
  { id := "a1", jobId := "j1", workerId := "w1",
    status := AppStatus.pending, rejectedAt := none }

/-- A concrete rejected application for `sampleJob`, rejected at epoch 0. -/
def sampleRejected : Application :=
  { id := "a2", jobId := "j1", workerId := "w1",
    status := AppStatus.rejected, rejectedAt := some 0 }

/-- A concrete completed job. -/
def sampleCompleted : Job :=
  { sampleJob with id := "j2", status := JobStatus.completed }

/-- A second job, untouched by operations aimed at `sampleJob`. -/
def sampleOtherJob : Job :=
  { sampleJob with id := "j3" }

/-- An application referencing `sampleOtherJob`. -/
def sampleOtherApp : Application :=
  { id := "a3", jobId := "j3", workerId := "w2",
    status := AppStatus.pending, rejectedAt := none }

/-- A creation form whose wage exceeds the implicit 100,000 cap. -/
def sampleBigWageForm : JobForm :=
  { title := "t", description := "d", preferredDate := "",
    wage := some 200000, duration := some 8,
    durationType := DurationType.hours, location := "L",
    requiredWorkers := some 2 }

/-- The `MyJobsPage` component state read by the edit and delete
handlers. -/
structure MyJobsState where
  jobs : List Job
  applications : List Application
deriving DecidableEq, Repr

/-- `MyJobsPage` state initialisation: `useState<Job[]>([])` and
`useState<Application[]>([])`. -/
def initialMyJobsState : MyJobsState :=
  { jobs := [], applications := [] }

/-- `MyJobsPage.loadData`, farmer branch: the job store is recomputed and
filtered to the farmer's own jobs, but `setApplications` is never called on
this branch — the application store is not even read — so the
`applications` state keeps its current value, the initial `[]`. -/
def loadDataFarmer (state : MyJobsState) (storeJobs : List Job)
    (farmerId : String) : MyJobsState :=
  { state with
      jobs := (updateAllJobStatuses storeJobs).filter
        (fun j => j.farmerId == farmerId) }

/-- Spec Scenario D's job: capacity 3, otherwise like `sampleJob`. -/
def scenarioDJob : Job :=
  { sampleJob with id := "j4", requiredWorkers := 3 }

/-- The pending application for `scenarioDJob` held in the store. -/
def scenarioDApp : Application :=
  { id := "a4", jobId := "j4", workerId := "w1",
    status := AppStatus.pending, rejectedAt := none }

/-- A job whose two slots are both filled by accepted workers. -/
def filledJob : Job :=
  { sampleJob with
      id := "j5",
      acceptedWorkerIds := ["w1", "w2"],
      requiredWorkers := 2,
      status := JobStatus.filled }

/-- The first accepted application backing `filledJob`. -/
def acceptedApp1 : Application :=
  { id := "a5", jobId := "j5", workerId := "w1",
    status := AppStatus.accepted, rejectedAt := none }

/-- The second accepted application backing `filledJob`. -/
def acceptedApp2 : Application :=
  { id := "a6", jobId := "j5", workerId := "w2",
    status := AppStatus.accepted, rejectedAt := none }

/-- Claim C1 (wage lock) — the code violates it: `loadData`'s farmer branch
never populates the `applications` state, so the farmer's save-edit runs
`handleSaveEdit` against `[]` whatever the application store holds. With a
pending application for the job in the store, the wage change from 500 to
600 is accepted and written to the job store instead of being rejected
with the wage-locked reason. -/
theorem C1_wage_lock_code_bug :
    0 < (getJobApplications [samplePending] sampleJob.id).length
    ∧ (loadDataFarmer initialMyJobsState [sampleJob] "f1").applications = []
    ∧ handleSaveEdit sampleJob
        (loadDataFarmer initialMyJobsState [sampleJob] "f1").applications
        (some 600) (some 2) JobStatus.«open»
      = .ok { sampleJob with wage := 600 }
    ∧ applySaveEdit [sampleJob]
        (loadDataFarmer initialMyJobsState [sampleJob] "f1").applications
        sampleJob.id (some 600) (some 2) JobStatus.«open»
      = [{ sampleJob with wage := 600 }] :=
  ⟨by decide, by rfl, by rfl, by rfl⟩

/-- Claim C2 (completed is terminal): every save-edit attempt on a completed
job is rejected with the completed-job error and leaves the job store
unchanged, and deleting the job is likewise rejected. -/
theorem C2_completed_terminal (job : Job) (applications : List Application)
    (jobs : List Job)
    (hc : job.status = JobStatus.completed)
    (hfind : jobs.find? (fun j => j.id == job.id) = some job) :
    (∀ w n st, handleSaveEdit job applications w n st
        = .error .completedJob)
    ∧ (∀ w n st, applySaveEdit jobs applications job.id w n st = jobs)
    ∧ deleteJob jobs applications job.id = .error .completedJob := by
  have h1 : ∀ w n st, handleSaveEdit job applications w n st
      = .error .completedJob := by
    intro w n st
    unfold handleSaveEdit
    rw [if_pos hc]
  refine ⟨h1, ?_, ?_⟩
  · intro w n st
    unfold applySaveEdit
    rw [hfind]
    simp [h1]
  · unfold deleteJob
    rw [if_pos]
    rw [hfind]
    simp [hc]

/-- Witness for C2 at a concrete completed job: a wage/workers/status edit
and a delete attempt are both rejected and the store keeps the record. -/
theorem C2_completed_terminal_witness :
    handleSaveEdit sampleCompleted [] (some 700) (some 3) JobStatus.«open»
      = .error .completedJob
    ∧ applySaveEdit [sampleCompleted] [] sampleCompleted.id (some 700)
        (some 3) JobStatus.«open» = [sampleCompleted]
    ∧ deleteJob [sampleCompleted] [] sampleCompleted.id
      = .error .completedJob := by
  obtain ⟨h1, h2, h3⟩ :=
    C2_completed_terminal sampleCompleted [] [sampleCompleted] (by decide)
      (by rfl)
  exact ⟨h1 _ _ _, h2 _ _ _, h3⟩

/-- Claim C3 (capacity edit contract) — the code violates its shrink rule:
spec Scenario D (capacity 3, one pending application in the store, owner
sets capacity 2) must be rejected, but the farmer-side save-edit sees the
never-populated empty applications state, so both rejection prongs are
inert and the edit succeeds with the stored capacity dropping to 2. -/
theorem C3_capacity_code_bug :
    0 < (getJobApplications [scenarioDApp] scenarioDJob.id).length
    ∧ (loadDataFarmer initialMyJobsState [scenarioDJob] "f1").applications
      = []
    ∧ handleSaveEdit scenarioDJob
        (loadDataFarmer initialMyJobsState [scenarioDJob] "f1").applications
        (some scenarioDJob.wage) (some 2) JobStatus.«open»
      = .ok { scenarioDJob with requiredWorkers := 2 } :=
  ⟨by decide, by rfl, by rfl⟩

/-- Claim C4 (reapplication cooldown): for a stored rejected application
with timestamp `t`, `canReapply` reports eligibility exactly when at least
24 hours (in milliseconds) have elapsed since `t`. -/
theorem C4_reapply_cooldown (applications : List Application)
    (jobId : String) (now t : ℤ) (app : Application)
    (hfind : applications.find? (fun a => a.jobId == jobId) = some app)
    (hrej : app.status = AppStatus.rejected)
    (ht : app.rejectedAt = some t) :
    canReapply applications jobId now = true
      ↔ 24 * 60 * 60 * 1000 ≤ now - t := by
  unfold canReapply
  rw [hfind]
  simp only [hrej, ht]
  simp only [bne_self_eq_false, Bool.false_eq_true, if_false,
    decide_eq_true_eq]
  rw [le_div_iff₀ (by norm_num : (0:ℚ) < 1000 * 60 * 60)]
  norm_num
  exact_mod_cast Iff.rfl

/-- Witness for C4: with a rejection at epoch 0, reapplying is allowed at
exactly the 24-hour mark. -/
theorem C4_reapply_cooldown_witness :
    canReapply [sampleRejected] "j1" 86400000 = true :=
  (C4_reapply_cooldown [sampleRejected] "j1" 86400000 0 sampleRejected
    (by rfl) (by decide) (by decide)).mpr (by decide)

/-- Claim C5 (invariant I2) — the code can break it: a job with both slots
filled by accepted workers satisfies I2 and the store holds the two
accepted applications, yet the farmer-side capacity edit sees the
never-populated empty applications state (accepted count 0), accepts
shrinking `requiredWorkers` to 1, and the resulting stored job violates
`len(acceptedWorkerIds) ≤ requiredWorkers`. -/
theorem C5_invariant_I2_code_bug :
    acceptedWithinCapacity filledJob
    ∧ getAcceptedApplicationsCount [acceptedApp1, acceptedApp2] filledJob.id
      = 2
    ∧ (loadDataFarmer initialMyJobsState [filledJob] "f1").applications = []
    ∧ handleSaveEdit filledJob
        (loadDataFarmer initialMyJobsState [filledJob] "f1").applications
        (some filledJob.wage) (some 1) JobStatus.filled
      = .ok { filledJob with requiredWorkers := 1 }
    ∧ ¬ acceptedWithinCapacity { filledJob with requiredWorkers := 1 } :=
  ⟨by decide, by decide, by rfl, by rfl, by decide⟩

/-- Claim C6 (wage no-op idempotence): with the wage left at its current
positive value, the edit pipeline never reports a wage error whatever the
application count, and the full no-op edit is accepted. -/
theorem C6_wage_noop_idempotent (job : Job) (applications : List Application)
    (st : JobStatus)
    (hnc : job.status ≠ JobStatus.completed)
    (hw : 0 < job.wage)
    (hr : 0 < job.requiredWorkers)
    (hacc : (getAcceptedApplicationsCount applications job.id : ℤ)
        ≤ job.requiredWorkers) :
    (∀ n st2 e, handleSaveEdit job applications (some job.wage) n st2
        = .error e →
          e ≠ EditError.invalidWage ∧ (∀ k, e ≠ EditError.wageLocked k)
          ∧ e ≠ EditError.validatorRejected)
    ∧ ∃ updated, handleSaveEdit job applications (some job.wage)
        (some job.requiredWorkers) st = .ok updated := by
  have hdec : decide (job.wage ≠ job.wage) = false := by simp
  constructor
  · intro n st2 e h
    simp only [handleSaveEdit] at h
    rw [if_neg hnc] at h
    rw [if_neg (not_le.mpr hw)] at h
    simp only [hdec, Bool.and_false, Bool.false_eq_true, if_false] at h
    cases n with
    | none =>
      injection h with h
      subst h
      exact ⟨by simp, fun k => by simp, by simp⟩
    | some k =>
      repeat' split at h
      all_goals first
        | exact Except.noConfusion h
        | (injection h with h; subst h;
           exact ⟨by simp, fun k2 => by simp, by simp⟩)
  · simp only [handleSaveEdit]
    rw [if_neg hnc]
    rw [if_neg (not_le.mpr hw)]
    simp only [hdec, Bool.and_false, Bool.false_eq_true, if_false]
    rw [if_neg (not_le.mpr hr)]
    rw [if_neg (not_lt.mpr hacc)]
    have hsh : decide (job.requiredWorkers < job.requiredWorkers) = false := by
      simp
    simp only [hsh, Bool.and_false, Bool.false_eq_true, if_false]
    exact ⟨_, rfl⟩

/-- Witness for C6: re-submitting the current wage 500 on the concrete job
with one pending application succeeds. -/
theorem C6_wage_noop_idempotent_witness :
    ∃ updated, handleSaveEdit sampleJob [samplePending]
        (some sampleJob.wage) (some sampleJob.requiredWorkers)
        JobStatus.«open» = .ok updated :=
  (C6_wage_noop_idempotent sampleJob [samplePending] JobStatus.«open»
    (by decide) (by decide) (by decide) (by decide)).2

/-- Claim C7 (recompute idempotence): the batch status recompute applied
twice yields exactly the collection obtained by applying it once. -/
theorem C7_recompute_idempotent (jobs : List Job) :
    updateAllJobStatuses (updateAllJobStatuses jobs)
      = updateAllJobStatuses jobs := by
  have hidem : ∀ job, recomputeStatus (recomputeStatus job)
      = recomputeStatus job := by
    intro job
    cases hs : job.status <;>
      simp [recomputeStatus, hs] <;> (try split) <;> simp_all
  induction jobs with
  | nil => rfl
  | cons j t ih =>
    simp only [updateAllJobStatuses, List.map_cons] at *
    rw [hidem j, ih]

/-- Claim C8 (deletion cascade): deleting a non-completed job succeeds,
removing exactly the job and every application referencing it; jobs with
other ids and applications referencing other jobs all remain. -/
theorem C8_delete_cascade (jobs : List Job) (applications : List Application)
    (job : Job)
    (hfind : jobs.find? (fun j => j.id == job.id) = some job)
    (hnc : job.status ≠ JobStatus.completed) :
    deleteJob jobs applications job.id
      = .ok (jobs.filter (fun j => !(j.id == job.id)),
             applications.filter (fun a => !(a.jobId == job.id)))
    ∧ (∀ j ∈ jobs.filter (fun j => !(j.id == job.id)), j.id ≠ job.id)
    ∧ (∀ j ∈ jobs, j.id ≠ job.id →
        j ∈ jobs.filter (fun j => !(j.id == job.id)))
    ∧ (∀ a ∈ applications.filter (fun a => !(a.jobId == job.id)),
        a.jobId ≠ job.id)
    ∧ (∀ a ∈ applications, a.jobId ≠ job.id →
        a ∈ applications.filter (fun a => !(a.jobId == job.id))) := by
  refine ⟨?_, ?_, ?_, ?_, ?_⟩
  · unfold deleteJob
    rw [hfind]
    simp [hnc]
  · intro j hj
    simp [List.mem_filter] at hj
    exact hj.2
  · intro j hj hne
    simp [List.mem_filter]
    exact ⟨hj, hne⟩
  · intro a ha
    simp [List.mem_filter] at ha
    exact ha.2
  · intro a ha hne
    simp [List.mem_filter]
    exact ⟨ha, hne⟩

/-- Witness for C8: deleting the concrete open job removes it and its
application while the other job and its application stay. -/
theorem C8_delete_cascade_witness :
    deleteJob [sampleJob, sampleOtherJob] [samplePending, sampleOtherApp]
        sampleJob.id
      = .ok ([sampleJob, sampleOtherJob].filter
               (fun j => !(j.id == sampleJob.id)),
             [samplePending, sampleOtherApp].filter
               (fun a => !(a.jobId == sampleJob.id))) :=
  (C8_delete_cascade [sampleJob, sampleOtherJob]
    [samplePending, sampleOtherApp] sampleJob (by rfl) (by decide)).1

/-- Claim C9 (cooldown remaining-time display): while the cooldown of a
rejected application is still running, the reported message carries exactly
the spec's remaining time — 24 hours minus the elapsed time since
`rejectedAt`, ceiling-rounded to whole hours — and that number is
positive. -/
theorem C9_cooldown_display (applications : List Application)
    (jobId : String) (now t : ℤ) (app : Application)
    (hfind : applications.find? (fun a => a.jobId == jobId) = some app)
    (hrej : app.status = AppStatus.rejected)
    (ht : app.rejectedAt = some t)
    (hlt : now - t < 24 * 60 * 60 * 1000) :
    getTimeUntilReapply applications jobId now
      = s!"Can reapply in {specRemainingHours (now - t)} hours"
    ∧ 0 < specRemainingHours (now - t) := by
  have hceil : (⌈(24 : ℚ) - ((now - t : ℤ) : ℚ) / (1000 * 60 * 60)⌉ : ℤ)
      = specRemainingHours (now - t) := by
    unfold specRemainingHours
    congr 1
    push_cast
    field_simp
    ring
  have hpos : 0 < specRemainingHours (now - t) := by
    unfold specRemainingHours
    apply Int.ceil_pos.mpr
    apply div_pos
    · have hz : (0:ℤ) < 24 * 60 * 60 * 1000 - (now - t) := by linarith
      exact_mod_cast hz
    · norm_num
  refine ⟨?_, hpos⟩
  unfold getTimeUntilReapply
  rw [hfind]
  simp only [hrej, ht, bne_self_eq_false, Bool.false_eq_true, if_false]
  rw [hceil, if_neg (not_le.mpr hpos)]

/-- Witness for C9: one hour after a rejection at epoch 0 the message
reports the spec's remaining 23 hours. -/
theorem C9_cooldown_display_witness :
    getTimeUntilReapply [sampleRejected] "j1" 3600000
      = s!"Can reapply in {specRemainingHours (3600000 - 0)} hours"
    ∧ 0 < specRemainingHours (3600000 - 0) :=
  C9_cooldown_display [sampleRejected] "j1" 3600000 0 sampleRejected
    (by rfl) (by decide) (by decide) (by decide)

/-- Claim C10 (implicit wage upper bound): a creation request from a farmer
with the text fields filled and a wage above 100,000 fails with the
wage-too-high error, and no job is stored. -/
theorem C10_wage_upper_bound (uid un : String) (form : JobForm)
    (nid ca : String) (jobs : List Job) (w : ℚ)
    (ht : jsTrim form.title ≠ "") (hd : jsTrim form.description ≠ "")
    (hl : jsTrim form.location ≠ "")
    (hw : form.wage = some w) (hcap : 100000 < w) :
    handleSubmit UserType.farmer uid un form nid ca = .error .wageTooHigh
    ∧ submitAndSave jobs UserType.farmer uid un form nid ca = jobs := by
  have h1 : handleSubmit UserType.farmer uid un form nid ca
      = .error .wageTooHigh := by
    unfold handleSubmit
    rw [if_neg (by simp)]
    rw [if_neg (by simp [ht, hd, hl])]
    rw [hw]
    have hw0 : ¬ w ≤ 0 := not_le.mpr (lt_trans (by norm_num) hcap)
    simp [hw0, hcap]
  refine ⟨h1, ?_⟩
  unfold submitAndSave
  rw [h1]

/-- Witness for C10: the concrete form with wage 200,000 is rejected and
the empty store stays empty. -/
theorem C10_wage_upper_bound_witness :
    handleSubmit UserType.farmer "f1" "F" sampleBigWageForm "j9" "now"
      = .error .wageTooHigh
    ∧ submitAndSave [] UserType.farmer "f1" "F" sampleBigWageForm "j9" "now"
      = [] :=
  C10_wage_upper_bound "f1" "F" sampleBigWageForm "j9" "now" [] 200000
    (by decide) (by decide) (by decide) (by rfl) (by decide)

end Kheti
